import Mathlib

/-!
Shallow embedding of `SlocumBatteryPercentageDuration.py` (mousebrains/RecoverBy).

The script is a single linear pipeline, run once per input file:
argument parsing, per-file loading/cleaning (variable presence check, float
time conversion, deduplication, null filtering, sorting, windowing),
`scipy.stats.linregress`, recovery-time extrapolation, and a printed report.

Modelling conventions:
* Timestamps are rationals, in POSIX seconds (the code's nanosecond arithmetic
  `(t - t0)/86400e9` equals `(t - t0 seconds)/86400` in day units).
* IEEE-754 doubles are modelled by `F`: a rational, `+inf`, `-inf`, or NaN.
  Signed zero is collapsed to `+0`; every zero divisor arising in the script
  is a computed `+0.0` (e.g. a zero slope is `0.0/ssxm` with `ssxm > 0`).
* `sqrt` of a finite nonnegative rational is generally irrational; it is
  represented by `Rat.sqrt`, which preserves finiteness, NaN-ness and sign.
  No claim depends on the finite magnitude of any sqrt-derived quantity.
* scipy's Student-t critical value `t.ppf(p/2, df)` is NaN for `df ≤ 0`
  (outside the distribution's domain) and a finite irrational otherwise; the
  finite value is represented by a placeholder constant, again because no
  claim depends on its magnitude, only on its NaN-ness.
* Logging is modelled by the list of error strings emitted for a file; an
  uncaught Python exception is the `Outcome.crash` constructor (it aborts the
  whole run), `Outcome.skipped` is the `continue` path, and a printed report
  is `Outcome.report`.
-/

namespace RecoverBy

/-- IEEE-754 double model: finite rational, infinities, or NaN.
Signed zero is collapsed to `+0` (see file header). -/
inductive F where
  | nan : F
  | pinf : F
  | ninf : F
  | fin (q : ℚ) : F
deriving DecidableEq, Repr

/-- Float negation. -/
def Fneg : F → F
  | .nan => .nan
  | .pinf => .ninf
  | .ninf => .pinf
  | .fin a => .fin (-a)

/-- Float addition (IEEE semantics; `+inf + -inf = NaN`). -/
def Fadd : F → F → F
  | .nan, _ => .nan
  | _, .nan => .nan
  | .pinf, .ninf => .nan
  | .pinf, _ => .pinf
  | .ninf, .pinf => .nan
  | .ninf, _ => .ninf
  | .fin _, .pinf => .pinf
  | .fin _, .ninf => .ninf
  | .fin a, .fin b => .fin (a + b)

/-- Float subtraction. -/
def Fsub (a b : F) : F := Fadd a (Fneg b)

/-- Float multiplication (`inf * 0 = NaN`). -/
def Fmul : F → F → F
  | .nan, _ => .nan
  | _, .nan => .nan
  | .pinf, .pinf => .pinf
  | .pinf, .ninf => .ninf
  | .ninf, .pinf => .ninf
  | .ninf, .ninf => .pinf
  | .pinf, .fin b => if 0 < b then .pinf else if b < 0 then .ninf else .nan
  | .ninf, .fin b => if 0 < b then .ninf else if b < 0 then .pinf else .nan
  | .fin a, .pinf => if 0 < a then .pinf else if a < 0 then .ninf else .nan
  | .fin a, .ninf => if 0 < a then .ninf else if a < 0 then .pinf else .nan
  | .fin a, .fin b => .fin (a * b)

/-- Float division; a zero divisor is the computed `+0.0`
(`x/0 = ±inf` by the sign of `x`, `0/0 = NaN`, `inf/inf = NaN`). -/
def Fdiv : F → F → F
  | .nan, _ => .nan
  | _, .nan => .nan
  | .pinf, .pinf => .nan
  | .pinf, .ninf => .nan
  | .ninf, .pinf => .nan
  | .ninf, .ninf => .nan
  | .pinf, .fin b => if b < 0 then .ninf else .pinf
  | .ninf, .fin b => if b < 0 then .pinf else .ninf
  | .fin _, .pinf => .fin 0
  | .fin _, .ninf => .fin 0
  | .fin a, .fin b =>
      if b = 0 then (if 0 < a then .pinf else if a < 0 then .ninf else .nan)
      else .fin (a / b)

/-- Float square root. The finite branch uses `Rat.sqrt` as a stand-in for
the (generally irrational) true value: finiteness, NaN-ness and sign are
preserved, and no claim depends on the finite magnitude. -/
def Fsqrt : F → F
  | .nan => .nan
  | .pinf => .pinf
  | .ninf => .nan
  | .fin q => if q < 0 then .nan else .fin (Rat.sqrt q)

/-- C-style cast of a double to an integer: truncation toward zero
(numpy `float64.astype("timedelta64[D]")` and `astype("datetime64[s]")`
on floats truncate the fraction this way). -/
def truncQ (q : ℚ) : ℤ := if q < 0 then ⌈q⌉ else ⌊q⌋

/-- numpy cast of a double to `timedelta64[D]`: finite values truncate
toward zero; `±inf`/NaN become the NaT sentinel (`none`). -/
def FtruncDays : F → Option ℤ
  | .fin q => some (truncQ q)
  | _ => none

/-- numpy dtype kind of the time variable: `f` float, `i` integer,
`M` datetime64. -/
inductive TKind where
  | f : TKind
  | i : TKind
  | M : TKind
deriving DecidableEq, Repr

/-- Is the dtype kind numeric (integer or floating point)? -/
def numericKind : TKind → Bool
  | .f => true
  | .i => true
  | .M => false

/-- One raw record of an input file: its timestamp (POSIX seconds) and the
sensor value (`none` models a missing/null sensor sample). -/
abbrev Sample := ℚ × Option ℚ

/-- An input NetCDF file, as the script observes it: whether the requested
time and sensor variables are present, the dtype kind of the time variable,
and the (time, sensor) records in file order.  The time variable is assumed
to be (or become, after the float-conversion branch) the `time` coordinate
the script indexes by. -/
structure Dataset where
  hasTime : Bool
  hasSensor : Bool
  timeKind : TKind
  samples : List Sample
deriving DecidableEq, Repr

/-- The command-line arguments relevant to the analysis: the mutually
exclusive group holds `--ndays` and `--start`; `--stop` is a separate
argument (source lines 36-40).  `--threshold` defaults to 15. -/
structure Args where
  ndays : Option ℚ
  start : Option ℚ
  stop : Option ℚ
  threshold : ℚ
deriving DecidableEq, Repr

/-- Default arguments: no windowing, threshold 15. -/
def defaultArgs : Args := ⟨none, none, none, 15⟩

/-- argparse acceptance: the only constraint among these options is the
mutually exclusive group containing `--ndays` and `--start`
(source lines 36-38); `--stop` belongs to no group (line 40). -/
def parserAccepts (a : Args) : Bool := !(a.ndays.isSome && a.start.isSome)

/-- Lines 66-74: if the time variable's dtype kind is `f` it is assumed to
be POSIX seconds and cast with `astype("datetime64[s]")`, which truncates
each value toward zero to whole seconds; the dim is renamed to `time`.
Any other kind (including integer) is left untouched. -/
def convertTimes (ds : Dataset) : Dataset :=
  if ds.timeKind = TKind.f then
    { ds with timeKind := TKind.M,
              samples := ds.samples.map (fun p => ((truncQ p.1 : ℚ), p.2)) }
  else ds

/-- Worker for `dedupKeepFirst`: drop records whose timestamp was already
seen, keeping first occurrences in file order. -/
def dedupGo (seen : List ℚ) : List Sample → List Sample
  | [] => []
  | p :: rest =>
      if p.1 ∈ seen then dedupGo seen rest
      else p :: dedupGo (p.1 :: seen) rest

/-- Line 76: `ds.drop_duplicates("time", keep="first")`. -/
def dedupKeepFirst (xs : List Sample) : List Sample := dedupGo [] xs

/-- Ordering of samples by timestamp (for line 78's `sortby("time")`). -/
def timeLE (a b : Sample) : Prop := a.1 ≤ b.1

/-- Strict timestamp ordering. -/
def timeLT (a b : Sample) : Prop := a.1 < b.1

instance : DecidableRel timeLE := fun a b => inferInstanceAs (Decidable (a.1 ≤ b.1))

instance : IsTotal Sample timeLE := ⟨fun a b => le_total a.1 b.1⟩

instance : IsTrans Sample timeLE := ⟨fun _ _ _ hab hbc => le_trans hab hbc⟩

/-- Lines 64-78 of the per-file loop: restrict to the two variables, convert
a float time variable, drop duplicate timestamps keeping the first, drop
records with a null sensor value, and sort ascending by time. -/
def cleanSamples (ds : Dataset) : List Sample :=
  List.insertionSort timeLE
    ((dedupKeepFirst (convertTimes ds).samples).filter (fun p => p.2.isSome))

/-- `ds.sel(time=slice(stime, etime))` on a monotonically increasing index:
pandas takes the contiguous run from the first label `≥ stime` through the
last label `≤ etime` (both bounds inclusive). -/
def selSlice (stime etime : ℚ) (xs : List Sample) : List Sample :=
  (xs.dropWhile (fun p => decide (p.1 < stime))).takeWhile (fun p => decide (p.1 ≤ etime))

/-- Line 81-84: the start bound, defaulting to the cleaned series' first
timestamp (`ds.time[0]`). -/
def startBound (a : Args) (xs : List Sample) : ℚ :=
  match a.start with
  | some s => s
  | none => (xs.head?.map (fun p => p.1)).getD 0

/-- Line 85-88: the stop bound, defaulting to the cleaned series' last
timestamp (`ds.time[-1]`). -/
def stopBound (a : Args) (xs : List Sample) : ℚ :=
  match a.stop with
  | some e => e
  | none => (xs.getLast?.map (fun p => p.1)).getD 0

/-- Lines 80-93: the windowing `if/elif`.  If `--start` or `--stop` was
given, window by `[stime, etime]` with the other bound defaulting to the
series' own first/last timestamp — indexing an empty series for a default
raises `IndexError`.  Otherwise, if `--ndays` was given, window to the
trailing `int(ndays*86400)` seconds ending at the last timestamp.
Otherwise leave the data alone. -/
def applyWindow (a : Args) (xs : List Sample) : Except String (List Sample) :=
  if a.start.isSome ∨ a.stop.isSome then
    if a.start = none ∧ xs = [] then .error "IndexError: time[0]"
    else if a.stop = none ∧ xs = [] then .error "IndexError: time[-1]"
    else .ok (selSlice (startBound a xs) (stopBound a xs) xs)
  else
    match a.ndays with
    | some nd =>
        match xs.getLast? with
        | none => .error "IndexError: time[-1]"
        | some p => .ok (selSlice (p.1 - (truncQ (nd * 86400) : ℚ)) p.1 xs)
    | none => .ok xs

/-- The sample sequence actually handed to the regression: cleaning
followed by windowing. -/
def windowedSamples (a : Args) (ds : Dataset) : Except String (List Sample) :=
  applyWindow a (cleanSamples ds)

/-- Line 99: elapsed days since the first retained sample
(`(ds.time - ds.time[0])` in nanoseconds, divided by `86400e9`). -/
def dDaysOf (xs : List Sample) : List ℚ :=
  match xs.head? with
  | none => []
  | some p0 => xs.map (fun p => (p.1 - p0.1) / 86400)

/-- Are all entries of the list equal (scipy's `amax(x) == amin(x)`)? -/
def allEqQ : List ℚ → Bool
  | [] => true
  | a :: rest => rest.all (fun b => decide (b = a))

/-- Mean of a list (float division; `length = 0` never reaches this). -/
def meanQ (l : List ℚ) : ℚ := l.sum / l.length

/-- Biased sample variance `mean((l - mean l)^2)` (scipy's `cov(x, y,
bias=1)` diagonal). -/
def ssQ (l : List ℚ) : ℚ :=
  ((l.map (fun v => (v - meanQ l) * (v - meanQ l))).sum) / l.length

/-- Biased sample covariance `mean((x - mean x)(y - mean y))`. -/
def ssxyQ (x y : List ℚ) : ℚ :=
  (((x.zip y).map (fun p => (p.1 - meanQ x) * (p.2 - meanQ y))).sum) / x.length

/-- The fields of scipy's `linregress` result that the script reads.
`rsq` is `rvalue**2` (exact, so the clamp of `r` into `[-1, 1]` is the
`min`); the p-value is printed but tested by no claim and is omitted. -/
structure LinFit where
  slope : F
  intercept : F
  rsq : F
  stderr : F
  intercept_stderr : F
deriving DecidableEq, Repr

/-- `scipy.stats.linregress(x, y)`.  Raises `ValueError` when all `x` are
identical (and `n > 1`); an empty input cannot reach it (the size-0 check
on line 95 precedes the call).  `slope = ssxym/ssxm`,
`intercept = ymean - slope*xmean`, `r = 0` when either variance vanishes.
For `n == 2` scipy sets both standard errors to `0.0`; otherwise
`slope_stderr = sqrt((1 - r^2) * ssym / ssxm / df)` with `df = n - 2` and
`intercept_stderr = slope_stderr * sqrt(ssxm + xmean^2)`. -/
def linregress (x y : List ℚ) : Except String LinFit :=
  if x.length = 0 then .error "empty input"
  else if 1 < x.length ∧ allEqQ x = true then
    .error "ValueError: all x values are identical"
  else
    let ssxm := ssQ x
    let ssym := ssQ y
    let ssxym := ssxyQ x y
    let slope := Fdiv (.fin ssxym) (.fin ssxm)
    let intercept := Fsub (.fin (meanQ y)) (Fmul slope (.fin (meanQ x)))
    let rsq : F :=
      if ssxm = 0 ∨ ssym = 0 then .fin 0
      else .fin (min 1 (ssxym * ssxym / (ssxm * ssym)))
    if x.length = 2 then
      .ok ⟨slope, intercept, rsq, .fin 0, .fin 0⟩
    else
      let df : ℚ := (x.length : ℚ) - 2
      let slope_stderr :=
        Fsqrt (Fdiv (Fdiv (Fmul (Fsub (.fin 1) rsq) (.fin ssym)) (.fin ssxm)) (.fin df))
      .ok ⟨slope, intercept, rsq, slope_stderr,
           Fmul slope_stderr (Fsqrt (.fin (ssxm + meanQ x * meanQ x)))⟩

/-- Line 113: `tinv(p, df) = abs(t.ppf(p/2, df))`.  scipy's Student-t ppf
is NaN outside the domain `df > 0`; for `df ≥ 1` the critical value is a
finite irrational represented here by a placeholder (no claim depends on
its magnitude, only on its NaN-ness at `df ≤ 0`). -/
def tinvF (df : ℤ) : F := if df ≤ 0 then .nan else .fin 2

/-- The numeric content of the per-file report printed on lines 120-127
(sensor name and threshold are echoed arguments; the p-value is printed but
tested by no claim).  `tRecoverBy` is `none` when the timedelta cast of a
non-finite `dRecovery` produced NaT. -/
structure Report where
  intercept : F
  slope : F
  rsq : F
  dRecovery : F
  tRecoverBy : Option ℤ
  ciIntercept : F
  ciSlope : F
  ciRecoverBy : F
deriving DecidableEq, Repr

/-- Lines 99-118: the fit, extrapolation and confidence intervals for a
nonempty windowed sample list `xs`.
`dRecovery = (threshold - intercept)/slope` (elapsed days),
`tRecoverBy = time[0] + dRecovery.astype("timedelta64[D]")` then cast to
whole seconds, `sigmaRecoverBy = sqrt(sigmaIntercept^2 +
dRecovery^2 * sigmaSlope^2)`, and each CI half-width is `sigma * ts` with
`ts = tinv(0.05, n - 2)`. -/
def fitAndReport (a : Args) (xs : List Sample) : Except String Report :=
  match linregress (dDaysOf xs) (xs.map (fun p => p.2.getD 0)) with
  | .error e => .error e
  | .ok mdl =>
      let t0 : ℚ := (xs.head?.map (fun p => p.1)).getD 0
      let dRecovery := Fdiv (Fsub (.fin a.threshold) mdl.intercept) mdl.slope
      let tRecoverBy : Option ℤ :=
        (FtruncDays dRecovery).map (fun d => ⌊t0 + 86400 * (d : ℚ)⌋)
      let sigmaRecoverBy :=
        Fsqrt (Fadd (Fmul mdl.intercept_stderr mdl.intercept_stderr)
          (Fmul (Fmul dRecovery dRecovery) (Fmul mdl.stderr mdl.stderr)))
      let ts := tinvF ((xs.length : ℤ) - 2)
      .ok { intercept := mdl.intercept, slope := mdl.slope, rsq := mdl.rsq,
            dRecovery := dRecovery, tRecoverBy := tRecoverBy,
            ciIntercept := Fmul mdl.intercept_stderr ts,
            ciSlope := Fmul mdl.stderr ts,
            ciRecoverBy := Fmul sigmaRecoverBy ts }

/-- What processing one file produces: an uncaught exception (which aborts
the whole run), a logged skip (`continue`), or a printed report. -/
inductive Outcome where
  | crash (msg : String) : Outcome
  | skipped : Outcome
  | report (r : Report) : Outcome
deriving DecidableEq, Repr

/-- Lines 59-62: the presence loop logs an error for each missing variable
(time first, then sensor) — and then falls through without skipping. -/
def missingVarLogs (ds : Dataset) : List String :=
  (if ds.hasTime then [] else ["time variable not present"]) ++
    (if ds.hasSensor then [] else ["sensor variable not present"])

/-- The body of the per-file loop (lines 58-127).  A missing time variable
raises `KeyError` at line 66 (`ds[args.time].dtype`); with time present but
the sensor missing, the float conversion and deduplication run and then
line 77 (`ds[args.sensor].isnull()`) raises `KeyError` — neither step in
between can fail, so the checks are hoisted here.  An empty windowed series
is logged and skipped (lines 95-97); otherwise the fit runs and a report is
printed. -/
def processFile (a : Args) (ds : Dataset) : List String × Outcome :=
  let logs := missingVarLogs ds
  if ds.hasTime = false then (logs, .crash "KeyError: time")
  else if ds.hasSensor = false then (logs, .crash "KeyError: sensor")
  else
    match windowedSamples a ds with
    | .error e => (logs, .crash e)
    | .ok xs =>
        if xs.length = 0 then (logs ++ ["No data to fit"], .skipped)
        else
          match fitAndReport a xs with
          | .error e => (logs, .crash e)
          | .ok r => (logs, .report r)

/-- The `for` loop over all input files (line 56): files are processed in
order; an uncaught exception aborts the run, so files after a crash are
never opened. -/
def runFiles (a : Args) : List Dataset → List (List String × Outcome)
  | [] => []
  | ds :: rest =>
      match processFile a ds with
      | (logs, .crash e) => [(logs, .crash e)]
      | r => r :: runFiles a rest

/-- Projection: the report of an outcome, when one was printed. -/
def reportOf : Outcome → Option Report
  | .report r => some r
  | _ => none

/-! Helper lemmas about the cleaning, windowing and fitting stages. -/

/-- Distinct timestamps. -/
def keyNe (a b : Sample) : Prop := a.1 ≠ b.1

theorem Fmul_nan_right (x : F) : Fmul x F.nan = F.nan := by cases x <;> rfl

theorem dedupGo_not_mem :
    ∀ (xs : List Sample) (seen : List ℚ) (q : Sample), q ∈ dedupGo seen xs → q.1 ∉ seen := by
  intro xs
  induction xs with
  | nil => intro seen q hq; simp [dedupGo] at hq
  | cons p rest ih =>
      intro seen q hq
      by_cases hp : p.1 ∈ seen
      · rw [dedupGo, if_pos hp] at hq
        exact ih seen q hq
      · rw [dedupGo, if_neg hp] at hq
        rcases List.mem_cons.mp hq with h | h
        · cases h; exact hp
        · intro hs
          exact ih (p.1 :: seen) q h (List.mem_cons_of_mem _ hs)

theorem dedupGo_pairwise :
    ∀ (xs : List Sample) (seen : List ℚ), (dedupGo seen xs).Pairwise keyNe := by
  intro xs
  induction xs with
  | nil => intro seen; simp [dedupGo]
  | cons p rest ih =>
      intro seen
      by_cases hp : p.1 ∈ seen
      · rw [dedupGo, if_pos hp]; exact ih seen
      · rw [dedupGo, if_neg hp]
        refine List.Pairwise.cons ?_ (ih _)
        intro q hq he
        exact dedupGo_not_mem rest (p.1 :: seen) q hq (he ▸ List.mem_cons_self _ _)

theorem cleanSamples_sorted (ds : Dataset) : (cleanSamples ds).Pairwise timeLE :=
  List.sorted_insertionSort timeLE _

theorem cleanSamples_keyNe (ds : Dataset) : (cleanSamples ds).Pairwise keyNe := by
  have h1 : (dedupKeepFirst (convertTimes ds).samples).Pairwise keyNe :=
    dedupGo_pairwise _ []
  have h2 := h1.filter (fun p => p.2.isSome)
  have h3 := List.perm_insertionSort timeLE
    ((dedupKeepFirst (convertTimes ds).samples).filter (fun p => p.2.isSome))
  exact (h3.pairwise_iff (fun h => Ne.symm h)).mpr h2

theorem pairwise_lt_of_le_ne :
    ∀ {xs : List Sample}, xs.Pairwise timeLE → xs.Pairwise keyNe → xs.Pairwise timeLT := by
  intro xs
  induction xs with
  | nil => intro _ _; exact List.Pairwise.nil
  | cons p rest ih =>
      intro hle hne
      rcases List.pairwise_cons.mp hle with ⟨hle1, hle2⟩
      rcases List.pairwise_cons.mp hne with ⟨hne1, hne2⟩
      exact List.Pairwise.cons (fun q hq => lt_of_le_of_ne (hle1 q hq) (hne1 q hq)) (ih hle2 hne2)

theorem cleanSamples_strict (ds : Dataset) : (cleanSamples ds).Pairwise timeLT :=
  pairwise_lt_of_le_ne (cleanSamples_sorted ds) (cleanSamples_keyNe ds)

theorem mem_dropWhile_lt (s : ℚ) :
    ∀ (xs : List Sample), xs.Pairwise timeLE → ∀ q : Sample,
      (q ∈ xs.dropWhile (fun p => decide (p.1 < s)) ↔ q ∈ xs ∧ s ≤ q.1) := by
  intro xs
  induction xs with
  | nil => intro _ q; simp
  | cons a rest ih =>
      intro hp q
      rcases List.pairwise_cons.mp hp with ⟨h1, h2⟩
      rw [List.dropWhile_cons]
      by_cases ha : a.1 < s
      · rw [if_pos (by simpa using ha), ih h2 q]
        constructor
        · rintro ⟨hq, hs⟩
          exact ⟨List.mem_cons_of_mem _ hq, hs⟩
        · rintro ⟨hq, hs⟩
          rcases List.mem_cons.mp hq with rfl | hq
          · exact absurd (lt_of_le_of_lt hs ha) (lt_irrefl _)
          · exact ⟨hq, hs⟩
      · rw [if_neg (by simpa using ha)]
        push_neg at ha
        constructor
        · intro hq
          refine ⟨hq, ?_⟩
          rcases List.mem_cons.mp hq with rfl | hq
          · exact ha
          · exact le_trans ha (h1 q hq)
        · exact fun h => h.1

theorem mem_takeWhile_le (e : ℚ) :
    ∀ (xs : List Sample), xs.Pairwise timeLE → ∀ q : Sample,
      (q ∈ xs.takeWhile (fun p => decide (p.1 ≤ e)) ↔ q ∈ xs ∧ q.1 ≤ e) := by
  intro xs
  induction xs with
  | nil => intro _ q; simp
  | cons a rest ih =>
      intro hp q
      rcases List.pairwise_cons.mp hp with ⟨h1, h2⟩
      rw [List.takeWhile_cons]
      by_cases ha : a.1 ≤ e
      · rw [if_pos (by simpa using ha)]
        constructor
        · intro hq
          rcases List.mem_cons.mp hq with rfl | hq
          · exact ⟨List.mem_cons_self _ _, ha⟩
          · rcases (ih h2 q).mp hq with ⟨hq2, he⟩
            exact ⟨List.mem_cons_of_mem _ hq2, he⟩
        · rintro ⟨hq, he⟩
          rcases List.mem_cons.mp hq with rfl | hq
          · exact List.mem_cons_self _ _
          · exact List.mem_cons_of_mem _ ((ih h2 q).mpr ⟨hq, he⟩)
      · rw [if_neg (by simpa using ha)]
        push_neg at ha
        constructor
        · intro hq; simp at hq
        · rintro ⟨hq, he⟩
          rcases List.mem_cons.mp hq with rfl | hq
          · exact absurd he (not_le.mpr ha)
          · exact absurd (le_trans (h1 q hq) he) (not_le.mpr ha)

theorem selSlice_mem {s e : ℚ} {xs : List Sample} (h : xs.Pairwise timeLE) (q : Sample) :
    q ∈ selSlice s e xs ↔ q ∈ xs ∧ s ≤ q.1 ∧ q.1 ≤ e := by
  unfold selSlice
  have hdrop : (xs.dropWhile (fun p => decide (p.1 < s))).Pairwise timeLE :=
    h.sublist (List.dropWhile_sublist _)
  rw [mem_takeWhile_le e _ hdrop q, mem_dropWhile_lt s xs h q]
  tauto

theorem selSlice_sublist (s e : ℚ) (xs : List Sample) : List.Sublist (selSlice s e xs) xs :=
  (List.takeWhile_sublist _).trans (List.dropWhile_sublist _)

theorem applyWindow_sublist {a : Args} {xs w : List Sample}
    (h : applyWindow a xs = .ok w) : List.Sublist w xs := by
  unfold applyWindow at h
  by_cases h1 : a.start.isSome ∨ a.stop.isSome
  · rw [if_pos h1] at h
    split_ifs at h
    all_goals injection h with h
    all_goals exact h ▸ selSlice_sublist _ _ _
  · rw [if_neg h1] at h
    cases hnd : a.ndays with
    | none =>
        rw [hnd] at h
        injection h with h
        exact h ▸ List.Sublist.refl _
    | some nd =>
        rw [hnd] at h
        cases hl : xs.getLast? with
        | none => rw [hl] at h; simp at h
        | some p =>
            rw [hl] at h
            injection h with h
            exact h ▸ selSlice_sublist _ _ _

theorem windowed_sorted {a : Args} {ds : Dataset} {w : List Sample}
    (h : windowedSamples a ds = .ok w) : w.Pairwise timeLE :=
  (cleanSamples_sorted ds).sublist (applyWindow_sublist h)

theorem windowed_strict {a : Args} {ds : Dataset} {w : List Sample}
    (h : windowedSamples a ds = .ok w) : w.Pairwise timeLT :=
  (cleanSamples_strict ds).sublist (applyWindow_sublist h)

theorem linregress_ok_two (x y : List ℚ) (h2 : x.length = 2) (hne : allEqQ x = false) :
    ∃ fit : LinFit, linregress x y = .ok fit ∧
      fit.stderr = .fin 0 ∧ fit.intercept_stderr = .fin 0 := by
  rw [linregress, h2]
  norm_num [hne]

theorem processFile_report {a : Args} {ds : Dataset} {xs : List Sample} {r : Report}
    (ht : ds.hasTime = true) (hs : ds.hasSensor = true)
    (hw : windowedSamples a ds = .ok xs) (hne : xs.length ≠ 0)
    (hf : fitAndReport a xs = .ok r) :
    processFile a ds = ([], .report r) := by
  simp [processFile, missingVarLogs, ht, hs, hw, hne, hf]

theorem processFile_skip {a : Args} {ds : Dataset}
    (ht : ds.hasTime = true) (hs : ds.hasSensor = true)
    (hw : windowedSamples a ds = .ok []) :
    processFile a ds = (["No data to fit"], .skipped) := by
  simp [processFile, missingVarLogs, ht, hs, hw]

theorem runFiles_cons_skip {a : Args} {ds : Dataset} {rest : List Dataset}
    {logs : List String} (h : processFile a ds = (logs, .skipped)) :
    runFiles a (ds :: rest) = (logs, .skipped) :: runFiles a rest := by
  simp [runFiles, h]

theorem runFiles_cons_report {a : Args} {ds : Dataset} {rest : List Dataset}
    {logs : List String} {r : Report} (h : processFile a ds = (logs, .report r)) :
    runFiles a (ds :: rest) = (logs, .report r) :: runFiles a rest := by
  simp [runFiles, h]

theorem runFiles_cons_crash {a : Args} {ds : Dataset} {rest : List Dataset}
    {logs : List String} {e : String} (h : processFile a ds = (logs, .crash e)) :
    runFiles a (ds :: rest) = [(logs, .crash e)] := by
  simp [runFiles, h]

theorem linregress_one (v : ℚ) :
    linregress [0] [v] = .ok ⟨.nan, .nan, .fin 0, .nan, .nan⟩ := by
  norm_num [linregress, allEqQ, meanQ, ssQ, ssxyQ, Fdiv, Fsub, Fadd, Fneg, Fmul, Fsqrt]

theorem fitAndReport_one (a : Args) (p : Sample) :
    ∃ r : Report, fitAndReport a [p] = .ok r ∧
      r.slope = F.nan ∧ r.intercept = F.nan ∧ r.tRecoverBy = none := by
  have hdd : dDaysOf [p] = [0] := by simp [dDaysOf]
  have hy : [p].map (fun s => s.2.getD 0) = [p.2.getD 0] := by simp
  have hlin := linregress_one (p.2.getD 0)
  simp only [fitAndReport, hdd, hy, hlin]
  refine ⟨_, rfl, rfl, rfl, ?_⟩
  simp [Fdiv, Fsub, Fadd, Fneg, FtruncDays]

theorem fitAndReport_two (a : Args) (p q : Sample) (hlt : p.1 < q.1) :
    ∃ r : Report, fitAndReport a [p, q] = .ok r ∧
      r.ciIntercept = F.nan ∧ r.ciSlope = F.nan ∧ r.ciRecoverBy = F.nan := by
  have hsub : (0:ℚ) < q.1 - p.1 := sub_pos.mpr hlt
  have h0 : (0:ℚ) < (q.1 - p.1) / 86400 := by positivity
  have hd : (q.1 - p.1) / 86400 ≠ 0 := ne_of_gt h0
  have hdd : dDaysOf [p, q] = [0, (q.1 - p.1) / 86400] := by simp [dDaysOf]
  have hne : allEqQ [0, (q.1 - p.1) / 86400] = false := by simp [allEqQ, hd]
  obtain ⟨fit, hf, hs1, hs2⟩ := linregress_ok_two [0, (q.1 - p.1) / 86400]
    ([p, q].map (fun s => s.2.getD 0)) (by simp) hne
  simp only [fitAndReport, hdd, hf]
  refine ⟨_, rfl, ?_, ?_, ?_⟩ <;> simp [tinvF, Fmul_nan_right]

/-! Claims of the specification, settled against the embedding above. -/

/-- C9 (confirmed): after cleaning (deduplication keeping first occurrences,
null filtering, sorting) and any windowing, the retained sample sequence has
pairwise-unique timestamps in strictly increasing order, and that is the
sequence handed to the regression stage. -/
theorem C9_strictly_increasing (a : Args) (ds : Dataset) (w : List Sample)
    (hw : windowedSamples a ds = .ok w) : w.Pairwise timeLT :=
  windowed_strict hw

/-- C9 witness: a concrete file with an out-of-order series, a duplicated
timestamp and a null sample cleans to a strictly increasing sequence. -/
theorem C9_witness :
    windowedSamples defaultArgs
        ⟨true, true, .M, [(10, some 5), (3, some 7), (10, some 6), (4, none), (1, some 2)]⟩ =
      .ok [(1, some 2), (3, some 7), (10, some 5)] ∧
    List.Pairwise timeLT [((1:ℚ), some (2:ℚ)), (3, some 7), (10, some 5)] := by
  have h : windowedSamples defaultArgs
      ⟨true, true, .M, [(10, some 5), (3, some 7), (10, some 6), (4, none), (1, some 2)]⟩ =
      .ok [(1, some 2), (3, some 7), (10, some 5)] := by
    norm_num [windowedSamples, applyWindow, defaultArgs, cleanSamples, convertTimes,
      dedupKeepFirst, dedupGo, List.insertionSort, List.orderedInsert, timeLE, List.filter]
  exact ⟨h, C9_strictly_increasing defaultArgs _ _ h⟩

/-- C2 (code_bug): a file missing the requested sensor variable is logged as
an error but NOT skipped — the loop body falls through and raises `KeyError`
at `ds[args.sensor]`, which aborts the whole run, so the remaining (valid)
file is never processed.  The claim (and the spec's stated intent) is that
the file is skipped and processing continues. -/
theorem C2_missing_variable_crashes :
    runFiles defaultArgs
        [⟨true, false, .M, [(0, some 1)]⟩,
         ⟨true, true, .M, [(0, some 50), (86400, some 40)]⟩] =
      [(["sensor variable not present"], .crash "KeyError: sensor")] := by
  have h : processFile defaultArgs ⟨true, false, .M, [(0, some 1)]⟩ =
      (["sensor variable not present"], .crash "KeyError: sensor") := by
    simp [processFile, missingVarLogs]
  exact runFiles_cons_crash h

/-- C3 (code_bug): on a constant series the fitted slope is exactly `0.0`;
the script divides by it anyway: `dRecovery = (15 - 50)/0.0 = -inf`, whose
`timedelta64[D]` cast is the NaT sentinel (`none`), and the report is
printed with that value — there is no distinct "cannot estimate" path. -/
theorem C3_zero_slope_not_handled :
    (reportOf (processFile defaultArgs
        ⟨true, true, .M, [(0, some 50), (86400, some 50)]⟩).2).map
      (fun r => (r.slope, r.intercept, r.dRecovery, r.tRecoverBy)) =
      some (F.fin 0, F.fin 50, F.ninf, none) := by
  norm_num [processFile, missingVarLogs, windowedSamples, applyWindow, defaultArgs,
    cleanSamples, convertTimes, dedupKeepFirst, dedupGo, List.insertionSort,
    List.orderedInsert, timeLE, List.filter, fitAndReport, dDaysOf, linregress, allEqQ,
    meanQ, ssQ, ssxyQ, Fdiv, Fsub, Fadd, Fneg, Fmul, FtruncDays, truncQ, tinvF, reportOf]

/-- C6 (corrected, amended): when the windowing stage completes and zero
samples remain, the file is skipped with a logged error and the run
continues with the remaining files. -/
theorem C6_amended (a : Args) (ds : Dataset) (rest : List Dataset)
    (ht : ds.hasTime = true) (hs : ds.hasSensor = true)
    (hw : windowedSamples a ds = .ok []) :
    processFile a ds = (["No data to fit"], .skipped) ∧
    runFiles a (ds :: rest) = (["No data to fit"], .skipped) :: runFiles a rest := by
  have h := processFile_skip ht hs hw
  exact ⟨h, runFiles_cons_skip h⟩

/-- C6 witness: a file whose only sample has a null sensor value (no
windowing options) is skipped and the run continues. -/
theorem C6_witness :
    processFile defaultArgs ⟨true, true, .M, [(0, none)]⟩ =
      (["No data to fit"], .skipped) ∧
    runFiles defaultArgs [⟨true, true, .M, [(0, none)]⟩] =
      [(["No data to fit"], .skipped)] := by
  have hw : windowedSamples defaultArgs ⟨true, true, .M, [(0, none)]⟩ = .ok [] := by
    norm_num [windowedSamples, applyWindow, defaultArgs, cleanSamples, convertTimes,
      dedupKeepFirst, dedupGo, List.insertionSort, List.orderedInsert, timeLE, List.filter]
  have h := C6_amended defaultArgs ⟨true, true, .M, [(0, none)]⟩ [] rfl rfl hw
  exact ⟨h.1, by rw [h.2]; rfl⟩

/-- C6 counterexample: when cleaning leaves zero samples and `--ndays` was
given, the default stop bound reads `ds.time[-1]` of the empty series and
raises `IndexError`, crashing the run instead of logging and skipping —
the subsequent valid file is never processed. -/
theorem C6_counterexample :
    processFile ⟨some 2, none, none, 15⟩ ⟨true, true, .M, [(0, none), (5, none)]⟩ =
      ([], .crash "IndexError: time[-1]") ∧
    runFiles ⟨some 2, none, none, 15⟩
        [⟨true, true, .M, [(0, none), (5, none)]⟩,
         ⟨true, true, .M, [(0, some 50), (86400, some 40)]⟩] =
      [([], .crash "IndexError: time[-1]")] := by
  have h : processFile ⟨some 2, none, none, 15⟩ ⟨true, true, .M, [(0, none), (5, none)]⟩ =
      ([], .crash "IndexError: time[-1]") := by
    norm_num [processFile, missingVarLogs, windowedSamples, applyWindow, cleanSamples,
      convertTimes, dedupKeepFirst, dedupGo, List.insertionSort, List.orderedInsert,
      timeLE, List.filter]
  exact ⟨h, runFiles_cons_crash h⟩

/-- C7 (corrected, amended): only a floating-point time variable (dtype
kind `f`) is converted to a timestamp type — truncating to whole seconds —
and this happens before deduplication, filtering, sorting, windowing and
fitting: the file is processed exactly as its pre-converted datetime-kind
counterpart. -/
theorem C7_amended (ds : Dataset) (a : Args) (hf : ds.timeKind = TKind.f) :
    (convertTimes ds).timeKind = TKind.M ∧
    (convertTimes ds).samples = ds.samples.map (fun p => ((truncQ p.1 : ℚ), p.2)) ∧
    windowedSamples a ds = windowedSamples a (convertTimes ds) ∧
    processFile a ds = processFile a (convertTimes ds) := by
  have h1 : convertTimes ds =
      { ds with timeKind := TKind.M,
                samples := ds.samples.map (fun p => ((truncQ p.1 : ℚ), p.2)) } := by
    simp [convertTimes, hf]
  have h2 : convertTimes (convertTimes ds) = convertTimes ds := by
    rw [h1]; simp [convertTimes]
  have hww : windowedSamples a ds = windowedSamples a (convertTimes ds) := by
    unfold windowedSamples cleanSamples
    rw [h2]
  have hT : (convertTimes ds).hasTime = ds.hasTime := by rw [h1]
  have hS : (convertTimes ds).hasSensor = ds.hasSensor := by rw [h1]
  have hL : missingVarLogs (convertTimes ds) = missingVarLogs ds := by
    simp [missingVarLogs, hT, hS]
  refine ⟨by rw [h1], by rw [h1], hww, ?_⟩
  simp only [processFile, hT, hS, hL, hww]

/-- C7 witness: a float-typed file with a fractional POSIX timestamp is
converted (and truncated to whole seconds) before the pipeline runs. -/
theorem C7_witness :
    (convertTimes ⟨true, true, .f, [(11/2, some 3)]⟩).timeKind = TKind.M ∧
    (convertTimes ⟨true, true, .f, [(11/2, some 3)]⟩).samples =
      [((11:ℚ)/2, some (3:ℚ))].map (fun p => ((truncQ p.1 : ℚ), p.2)) ∧
    windowedSamples defaultArgs ⟨true, true, .f, [(11/2, some 3)]⟩ =
      windowedSamples defaultArgs (convertTimes ⟨true, true, .f, [(11/2, some 3)]⟩) ∧
    processFile defaultArgs ⟨true, true, .f, [(11/2, some 3)]⟩ =
      processFile defaultArgs (convertTimes ⟨true, true, .f, [(11/2, some 3)]⟩) :=
  C7_amended ⟨true, true, .f, [(11/2, some 3)]⟩ defaultArgs rfl

/-- C7 counterexample: an integer time variable is numeric, yet the
conversion branch (dtype kind `f` only) leaves it untouched — refuting the
claim that every numeric time variable is converted to a timestamp type. -/
theorem C7_counterexample :
    numericKind (⟨true, true, .i, [(3, some 1)]⟩ : Dataset).timeKind = true ∧
    (convertTimes ⟨true, true, .i, [(3, some 1)]⟩).timeKind = TKind.i ∧
    TKind.i ≠ TKind.M := by
  refine ⟨rfl, by simp [convertTimes], by decide⟩

/-- C5 (corrected, amended): `--ndays` cannot be combined with `--start`
(the parser's mutually exclusive group rejects it), but `--ndays` together
with `--stop` IS accepted; in that case the absolute-bound branch runs
(with start defaulting to the first timestamp) and `--ndays` is ignored, so
at most one windowing mode is applied. -/
theorem C5_amended (a : Args) (xs : List Sample) (hn : a.ndays.isSome = true) :
    (a.start.isSome = true → parserAccepts a = false) ∧
    (a.start = none → a.stop.isSome = true →
      parserAccepts a = true ∧
      applyWindow a xs = applyWindow ⟨none, a.start, a.stop, a.threshold⟩ xs) := by
  constructor
  · intro hs; simp [parserAccepts, hn, hs]
  · intro hs1 hs2
    refine ⟨by simp [parserAccepts, hn, hs1], ?_⟩
    rw [applyWindow, applyWindow]
    have hb : a.start.isSome = true ∨ a.stop.isSome = true := Or.inr hs2
    rw [if_pos hb, if_pos (Or.inr hs2 :
      (⟨none, a.start, a.stop, a.threshold⟩ : Args).start.isSome = true ∨
      (⟨none, a.start, a.stop, a.threshold⟩ : Args).stop.isSome = true)]
    rfl

/-- C5 witness: with `--ndays` and `--stop` both given, the parser accepts
and windowing is independent of the `--ndays` value. -/
theorem C5_witness :
    (((⟨some 5, none, some 100, 15⟩ : Args)).start.isSome = true →
      parserAccepts ⟨some 5, none, some 100, 15⟩ = false) ∧
    (((⟨some 5, none, some 100, 15⟩ : Args)).start = none →
      ((⟨some 5, none, some 100, 15⟩ : Args)).stop.isSome = true →
      parserAccepts ⟨some 5, none, some 100, 15⟩ = true ∧
      applyWindow ⟨some 5, none, some 100, 15⟩ [] =
        applyWindow ⟨none, none, some 100, 15⟩ []) :=
  C5_amended ⟨some 5, none, some 100, 15⟩ [] rfl

/-- C5 counterexample: `--ndays=5` combined with `--stop=100` is accepted
by the parser (only `--ndays`/`--start` are mutually exclusive), refuting
the claim that the trailing-duration option cannot be combined with either
absolute bound; the absolute branch then windows to `[0, 100]`, ignoring
`--ndays`. -/
theorem C5_counterexample :
    parserAccepts ⟨some 5, none, some 100, 15⟩ = true ∧
    (⟨some 5, none, some 100, 15⟩ : Args).ndays.isSome = true ∧
    (⟨some 5, none, some 100, 15⟩ : Args).stop.isSome = true ∧
    applyWindow ⟨some 5, none, some 100, 15⟩ [((0:ℚ), some (1:ℚ)), (200000, some 2)] =
      .ok [(0, some 1)] := by
  refine ⟨rfl, rfl, rfl, ?_⟩
  have hb : ((⟨some 5, none, some 100, 15⟩ : Args)).start.isSome = true ∨
      ((⟨some 5, none, some 100, 15⟩ : Args)).stop.isSome = true := Or.inr rfl
  rw [applyWindow, if_pos hb,
    if_neg (fun hc => List.cons_ne_nil _ _ hc.2),
    if_neg (fun hc => List.cons_ne_nil _ _ hc.2)]
  norm_num [startBound, stopBound, selSlice, List.dropWhile, List.takeWhile]

/-- C8 (confirmed): when `--start` or `--stop` is given, the fitted samples
are exactly the cleaned samples whose timestamps lie within the inclusive
window `[startBound, stopBound]`, each bound defaulting to the cleaned
series' own first/last timestamp when omitted. -/
theorem C8_window_membership (a : Args) (ds : Dataset) (w : List Sample) (q : Sample)
    (hb : a.start.isSome = true ∨ a.stop.isSome = true)
    (hw : windowedSamples a ds = .ok w) :
    q ∈ w ↔ q ∈ cleanSamples ds ∧
      startBound a (cleanSamples ds) ≤ q.1 ∧ q.1 ≤ stopBound a (cleanSamples ds) := by
  unfold windowedSamples at hw
  rw [applyWindow, if_pos hb] at hw
  split_ifs at hw
  all_goals injection hw with hw
  rw [← hw]
  exact selSlice_mem (cleanSamples_sorted ds) q

/-- C8 witness: with `--start=3` and `--stop` omitted, the window keeps
exactly the samples with timestamps in `[3, 7]` (7 being the last cleaned
timestamp), and a retained sample satisfies the membership equivalence. -/
theorem C8_witness :
    windowedSamples ⟨none, some 3, none, 15⟩
        ⟨true, true, .M, [(1, some 1), (3, some 2), (5, some 3), (7, some 4)]⟩ =
      .ok [(3, some 2), (5, some 3), (7, some 4)] ∧
    (((5:ℚ), some (3:ℚ)) ∈ [((3:ℚ), some (2:ℚ)), (5, some 3), (7, some 4)] ↔
      ((5:ℚ), some (3:ℚ)) ∈
          cleanSamples ⟨true, true, .M, [(1, some 1), (3, some 2), (5, some 3), (7, some 4)]⟩ ∧
        startBound ⟨none, some 3, none, 15⟩
            (cleanSamples ⟨true, true, .M, [(1, some 1), (3, some 2), (5, some 3), (7, some 4)]⟩) ≤ 5 ∧
        (5:ℚ) ≤ stopBound ⟨none, some 3, none, 15⟩
            (cleanSamples ⟨true, true, .M, [(1, some 1), (3, some 2), (5, some 3), (7, some 4)]⟩)) := by
  have hw : windowedSamples ⟨none, some 3, none, 15⟩
      ⟨true, true, .M, [(1, some 1), (3, some 2), (5, some 3), (7, some 4)]⟩ =
      .ok [(3, some 2), (5, some 3), (7, some 4)] := by
    norm_num [windowedSamples, applyWindow, cleanSamples, convertTimes, dedupKeepFirst,
      dedupGo, List.insertionSort, List.orderedInsert, timeLE, List.filter, startBound,
      stopBound, selSlice, List.dropWhile, List.takeWhile]
    rw [if_neg (fun hc => List.cons_ne_nil _ _ hc.2), if_neg (List.cons_ne_nil _ _)]
  exact ⟨hw, C8_window_membership ⟨none, some 3, none, 15⟩ _ _ ((5:ℚ), some (3:ℚ))
    (Or.inl rfl) hw⟩

/-- C10 (confirmed): a file with exactly two usable samples is neither
skipped nor does it crash: the fit runs (scipy's `n == 2` special case sets
both standard errors to `0.0`) and the report is printed with NaN 95%
confidence-interval fields for intercept, slope and recovery time, because
the t critical value is `t.ppf(0.025, 0)` at `n - 2 = 0` degrees of
freedom, which is NaN, and `0.0 * NaN = NaN`. -/
theorem C10_two_sample_report (a : Args) (ds : Dataset) (xs : List Sample)
    (ht : ds.hasTime = true) (hs : ds.hasSensor = true)
    (hw : windowedSamples a ds = .ok xs) (hl : xs.length = 2) :
    ∃ r : Report, processFile a ds = ([], .report r) ∧
      r.ciIntercept = F.nan ∧ r.ciSlope = F.nan ∧ r.ciRecoverBy = F.nan ∧
      tinvF ((xs.length : ℤ) - 2) = F.nan := by
  rcases xs with _ | ⟨p, _ | ⟨q, _ | ⟨r3, xs4⟩⟩⟩ <;> simp at hl
  have hlt : p.1 < q.1 :=
    (List.pairwise_cons.mp (windowed_strict hw)).1 q (List.mem_cons_self _ _)
  obtain ⟨r, hfa, h1, h2, h3⟩ := fitAndReport_two a p q hlt
  exact ⟨r, processFile_report ht hs hw (by simp) hfa, h1, h2, h3, by norm_num [tinvF]⟩

/-- C10 witness: a concrete two-sample file produces a report whose CI
fields are all NaN. -/
theorem C10_witness :
    ∃ r : Report,
      processFile defaultArgs ⟨true, true, .M, [(0, some 50), (86400, some 40)]⟩ =
        ([], .report r) ∧
      r.ciIntercept = F.nan ∧ r.ciSlope = F.nan ∧ r.ciRecoverBy = F.nan ∧
      tinvF (([((0:ℚ), some (50:ℚ)), (86400, some 40)].length : ℤ) - 2) = F.nan := by
  have hw : windowedSamples defaultArgs ⟨true, true, .M, [(0, some 50), (86400, some 40)]⟩ =
      .ok [(0, some 50), (86400, some 40)] := by
    norm_num [windowedSamples, applyWindow, defaultArgs, cleanSamples, convertTimes,
      dedupKeepFirst, dedupGo, List.insertionSort, List.orderedInsert, timeLE, List.filter]
  exact C10_two_sample_report defaultArgs _ _ rfl rfl hw (by simp)

/-- C4 (corrected, amended): when cleaning and windowing complete with zero
samples the file is skipped with a logged error and later files are still
processed; but a file with exactly ONE usable sample is NOT skipped — the
emptiness check passes, the fit runs, and a report whose statistics are NaN
is printed (the run continues either way). -/
theorem C4_amended (a : Args) (ds : Dataset) (rest : List Dataset) (xs : List Sample)
    (ht : ds.hasTime = true) (hs : ds.hasSensor = true)
    (hw : windowedSamples a ds = .ok xs) :
    (xs = [] →
      processFile a ds = (["No data to fit"], .skipped) ∧
      runFiles a (ds :: rest) = (["No data to fit"], .skipped) :: runFiles a rest) ∧
    (∀ p : Sample, xs = [p] →
      ∃ r : Report, processFile a ds = ([], .report r) ∧ r.slope = F.nan ∧
        r.intercept = F.nan ∧ r.tRecoverBy = none ∧
        runFiles a (ds :: rest) = ([], .report r) :: runFiles a rest) := by
  constructor
  · rintro rfl
    have h := processFile_skip ht hs hw
    exact ⟨h, runFiles_cons_skip h⟩
  · rintro p rfl
    obtain ⟨r, hfa, h1, h2, h3⟩ := fitAndReport_one a p
    have hp := processFile_report ht hs hw (by simp) hfa
    exact ⟨r, hp, h1, h2, h3, runFiles_cons_report hp⟩

/-- C4 witness: a file with exactly one usable sample produces a NaN report
(and the run continues), instantiating the one-sample branch. -/
theorem C4_witness :
    ∃ r : Report,
      processFile defaultArgs ⟨true, true, .M, [(0, some 42)]⟩ = ([], .report r) ∧
      r.slope = F.nan ∧ r.intercept = F.nan ∧ r.tRecoverBy = none ∧
      runFiles defaultArgs [⟨true, true, .M, [(0, some 42)]⟩] =
        ([], .report r) :: runFiles defaultArgs [] := by
  have h := C4_amended defaultArgs ⟨true, true, .M, [(0, some 42)]⟩ []
    [((0:ℚ), some (42:ℚ))] rfl rfl (by
      norm_num [windowedSamples, applyWindow, defaultArgs, cleanSamples, convertTimes,
        dedupKeepFirst, dedupGo, List.insertionSort, List.orderedInsert, timeLE, List.filter])
  exact h.2 ((0:ℚ), some (42:ℚ)) rfl

/-- C4 counterexample: a file with exactly one usable sample is NOT skipped
and NO error is logged — it produces a report — refuting the claim that
files with zero or one usable sample are skipped with a logged error. -/
theorem C4_counterexample :
    (processFile defaultArgs ⟨true, true, .M, [(0, some 42)]⟩).2 ≠ Outcome.skipped ∧
    (processFile defaultArgs ⟨true, true, .M, [(0, some 42)]⟩).1 = [] ∧
    (reportOf (processFile defaultArgs ⟨true, true, .M, [(0, some 42)]⟩).2).isSome = true := by
  obtain ⟨r, hfa, _, _, _⟩ := fitAndReport_one defaultArgs ((0:ℚ), some (42:ℚ))
  have hw : windowedSamples defaultArgs ⟨true, true, .M, [(0, some 42)]⟩ =
      .ok [((0:ℚ), some (42:ℚ))] := by
    norm_num [windowedSamples, applyWindow, defaultArgs, cleanSamples, convertTimes,
      dedupKeepFirst, dedupGo, List.insertionSort, List.orderedInsert, timeLE, List.filter]
  have hp := processFile_report rfl rfl hw (by simp) hfa
  rw [hp]
  exact ⟨by simp, rfl, by simp [reportOf]⟩

theorem processFile_C1 (t0 : ℚ) :
    ∃ r : Report,
      processFile defaultArgs ⟨true, true, .M, [(t0, some 50), (t0 + 86400, some 40)]⟩ =
        ([], .report r) ∧
      r.slope = .fin (-10) ∧ r.intercept = .fin 50 ∧ r.dRecovery = .fin (7/2) ∧
      r.tRecoverBy = some ⌊t0 + 259200⌋ := by
  have hne : t0 + 86400 ≠ t0 := by intro h; linarith
  have hle : t0 ≤ t0 + 86400 := by linarith
  have hclean : cleanSamples ⟨true, true, .M, [(t0, some 50), (t0 + 86400, some 40)]⟩ =
      [(t0, some 50), (t0 + 86400, some 40)] := by
    simp [cleanSamples, convertTimes, dedupKeepFirst, dedupGo, List.filter,
      List.insertionSort, List.orderedInsert, timeLE, hne, hle]
  have hwin : windowedSamples defaultArgs
      ⟨true, true, .M, [(t0, some 50), (t0 + 86400, some 40)]⟩ =
      .ok [(t0, some 50), (t0 + 86400, some 40)] := by
    simp [windowedSamples, applyWindow, defaultArgs, hclean]
  have hx : dDaysOf [(t0, some (50:ℚ)), (t0 + 86400, some 40)] = [0, 1] := by
    norm_num [dDaysOf]
  have hy : [(t0, some (50:ℚ)), (t0 + 86400, some 40)].map (fun s => s.2.getD 0) =
      [50, 40] := by simp
  have hlin : linregress [0, 1] [(50:ℚ), 40] =
      .ok ⟨.fin (-10), .fin 50, .fin 1, .fin 0, .fin 0⟩ := by
    norm_num [linregress, allEqQ, meanQ, ssQ, ssxyQ, Fdiv, Fsub, Fadd, Fneg, Fmul]
  have hfit : ∃ r : Report,
      fitAndReport defaultArgs [(t0, some (50:ℚ)), (t0 + 86400, some 40)] = .ok r ∧
      r.slope = .fin (-10) ∧ r.intercept = .fin 50 ∧ r.dRecovery = .fin (7/2) ∧
      r.tRecoverBy = some ⌊t0 + 259200⌋ := by
    simp only [fitAndReport, hx, hy, hlin]
    refine ⟨_, rfl, rfl, rfl, ?_, ?_⟩
    · norm_num [defaultArgs, Fdiv, Fsub, Fadd, Fneg, Fmul]
    · norm_num [defaultArgs, Fdiv, Fsub, Fadd, Fneg, Fmul, FtruncDays, truncQ]
  obtain ⟨r, hfa, h2, h3, h4, h5⟩ := hfit
  exact ⟨r, processFile_report rfl rfl hwin (by simp) hfa, h2, h3, h4, h5⟩

/-- C1 (corrected, amended): on the series `[(t0, 50), (t0 + 1 day, 40)]`
with threshold 15 the pipeline fits slope `-10`/day and intercept `50`, and
the elapsed-days offset `(threshold - intercept)/slope` is `3.5`; but the
`timedelta64[D]` cast truncates the offset toward zero to whole days before
it is added, so the reported recovery timestamp is `t0 + 3` days, not
`t0 + 3.5` days. -/
theorem C1_amended (t0 : ℤ) :
    ∃ r : Report,
      processFile defaultArgs
          ⟨true, true, .M, [((t0:ℚ), some 50), ((t0:ℚ) + 86400, some 40)]⟩ =
        ([], .report r) ∧
      r.slope = .fin (-10) ∧ r.intercept = .fin 50 ∧ r.dRecovery = .fin (7/2) ∧
      r.tRecoverBy = some (t0 + 259200) := by
  obtain ⟨r, h1, h2, h3, h4, h5⟩ := processFile_C1 (t0:ℚ)
  refine ⟨r, h1, h2, h3, h4, ?_⟩
  rw [h5]
  congr 1
  have hc : ((t0:ℚ) + 259200) = ((t0 + 259200 : ℤ) : ℚ) := by push_cast; ring
  rw [hc, Int.floor_intCast]

/-- C1 counterexample: at `t0 = 0` the reported recovery timestamp is
`259200` s (= 3 days), not the claimed `302400` s (= 3.5 days), even though
the elapsed-days offset is exactly `3.5`: the fractional day is lost in the
`timedelta64[D]` cast. -/
theorem C1_counterexample :
    ∃ r : Report,
      processFile defaultArgs ⟨true, true, .M, [(0, some 50), (86400, some 40)]⟩ =
        ([], .report r) ∧
      r.dRecovery = .fin (7/2) ∧ r.tRecoverBy = some 259200 ∧
      ¬ r.tRecoverBy = some 302400 := by
  obtain ⟨r, h1, _, _, h4, h5⟩ := processFile_C1 0
  rw [show ((0:ℚ) + 86400) = 86400 from by norm_num] at h1
  have h5' : r.tRecoverBy = some 259200 := by rw [h5]; norm_num
  exact ⟨r, h1, h4, h5', by rw [h5']; decide⟩

end RecoverBy
